import Mathlib

/-!
# Verification of the KonomiTV TSReplace encoding-task engine

Shallow embedding of the re-encode task engine of this repository:

* `server/app/streams/TSReplaceEncodingTask.py`
  (`_categorizeError`, `_isRetryable`, `_getRetryDelay`,
  `_updateProgressFromOutput`, `execute`, `cancel`, `_shouldRetry`,
  `_waitForRetry`, `_prepareEncoding`, `_executeEncoding` and the retry loop),
* `server/app/utils/EncodingFileTracker.py` (`addEncodingFile`,
  `removeEncodingFile`),
* `server/app/routers/TSReplaceRouter.py` (`broadcast_progress_updates`).

Python strings are Lean `String`s, `float` progress values are exact
rationals `ℚ`, Python `int` counters are `Nat`/`Int`.  The cooperative
single-threaded `asyncio` execution of one job is modelled as a
deterministic interpreter over an environment (`AttemptSpec`) that decides,
for each iteration of the retry loop, the preparation result, the attempt
outcome and at which suspension points a concurrent `cancel()` call runs.
-/

namespace KonomiTV

/-! ## Character/string helpers

`lowerChars` models Python `str.lower` on the (ASCII) error texts involved;
`isPySpace` models the whitespace class stripped by `str.strip` and matched
by the regex class `\s`. -/

def lowerChars (s : List Char) : List Char := s.map Char.toLower

def isPySpace (c : Char) : Bool :=
  c = ' ' ∨ c = '\t' ∨ c = '\n' ∨ c = '\r' ∨ c = '\x0b' ∨ c = '\x0c'

/-- Python `not s or not s.strip()`: `s` is empty or all whitespace. -/
def isBlankLine (s : String) : Bool := s.toList.all isPySpace

/-- `startsWithChars needle hay`: `needle` is a prefix of `hay`. -/
def startsWithChars : List Char → List Char → Bool
  | [], _ => true
  | _ :: _, [] => false
  | a :: as, b :: bs => a = b && startsWithChars as bs

/-- Suffix of `hay` that follows the first (leftmost) occurrence of
`needle`, or `none` when `needle` does not occur in `hay`. -/
def dropAfterFirst (needle : List Char) : List Char → Option (List Char)
  | [] => if needle = [] then some [] else none
  | c :: cs =>
    if startsWithChars needle (c :: cs) then some (List.drop needle.length (c :: cs))
    else dropAfterFirst needle cs

/-- `containsChars hay needle`: Python `needle in hay` on strings. -/
def containsChars (hay needle : List Char) : Bool :=
  (dropAfterFirst needle hay).isSome

/-- Python `needle in hay` for `String`s. -/
def strContains (hay needle : String) : Bool :=
  containsChars hay.toList needle.toList

/-- Split a character list at newline characters (Python regexes without
`re.DOTALL`: `.` never matches `'\n'`). -/
def splitLines : List Char → List (List Char)
  | [] => [[]]
  | c :: cs =>
    let r := splitLines cs
    if c = '\n' then [] :: r
    else
      match r with
      | [] => [[c]]
      | l :: ls => (c :: l) :: ls

/-! ## A matcher for the regex fragment used by `ERROR_PATTERNS`

Every pattern in `TSReplaceEncodingTask.ERROR_PATTERNS` is a sequence of
literal segments separated by `.*` (no other metacharacters occur; `#` and
`->` are literals).  `re.search(pat, s)` for such a pattern succeeds iff the
segments occur in order inside one line of `s` (a `.*` gap cannot cross a
newline).  Matching each segment at its leftmost occurrence is complete for
this pattern class: any later occurrence leaves a smaller suffix for the
remaining segments. -/

/-- Search for literal segments separated by `.*` gaps inside one line. -/
def segsSearch : List (List Char) → List Char → Bool
  | [], _ => true
  | seg :: rest, s =>
    match dropAfterFirst seg s with
    | none => false
    | some s' => segsSearch rest s'

/-- `re.search` of a `lit₀.*lit₁.*…` pattern against a whole string,
  both sides lower-cased (`_categorizeError` lowers pattern and message). -/
def reSearchCI (pat : List String) (msg : String) : Bool :=
  (splitLines (lowerChars msg.toList)).any
    (segsSearch (pat.map (fun seg => lowerChars seg.toList)))

/-! ## Error classification (`_categorizeError`, lines 1082–1095)

`ERROR_PATTERNS` is the class attribute at lines 66–115, in its Python
`dict` insertion order; each regex is represented as its list of literal
segments (split at `.*`). -/

def ERROR_PATTERNS : List (String × List (List String)) :=
  [ ("FILE_ACCESS",
      [["No such file or directory"], ["Permission denied"], ["Disk full"],
       ["Access is denied"]]),
    ("ENCODER",
      [["Encoder", "not found"], ["Hardware encoder", "not available"],
       ["Codec initialization failed"]]),
    ("RESOURCE",
      [["Out of memory"], ["Cannot allocate memory"], ["Too many open files"]]),
    ("PROCESS",
      [["Process", "terminated"], ["Command", "not found"],
       ["Execution", "failed"]]),
    ("STREAM_CHANGE",
      [["PMT", "version", "change"], ["New PMT"], ["program_number", "changed"],
       ["stream", "configuration", "change"], ["Stream", "#", "not found"],
       ["Cannot find a matching stream"], ["Invalid stream identifier"]]),
    ("VCEENCC_PARAM",
      [["storage->SetProperty", "failed"], ["invalid param"],
       ["VCEEncC", "parameter", "error"], ["AMF", "property", "error"]]),
    ("FFMPEG_STREAM",
      [["Stream mapping failed"], ["Cannot find stream"],
       ["Invalid stream specifier"], ["No suitable output format found"],
       ["Failed to open", "for reading"],
       ["Invalid data found when processing input"],
       ["Invalid frame dimensions"],
       ["Option", "cannot be applied to input url"],
       ["Error parsing options for input file"],
       ["Error opening input files"]]) ]

/-- `TSReplaceEncodingTask._categorizeError`: empty message is `UNKNOWN`;
otherwise the first category (in `ERROR_PATTERNS` order) with a pattern that
matches the lower-cased message wins; default `UNKNOWN`. -/
def categorizeError (error_message : String) : String :=
  if error_message = "" then "UNKNOWN"
  else
    match ERROR_PATTERNS.find? (fun cp => cp.2.any (fun pat => reSearchCI pat error_message)) with
    | some cp => cp.1
    | none => "UNKNOWN"

/-- Reformulation of the classifier following the words of spec §4.1 / C5:
ordered pattern matching over the fixed category order, first matching
category wins, case-insensitive, `UNKNOWN` default (also for the empty
string, with no special case).  The spec's order lists `CONFIGURATION` and
`NETWORK` as well; the code defines no patterns for them, so they are
carried with empty pattern lists and can never win.  (The spec calls
`VCEENCC_PARAM` "ENCODER_PARAM" and `FFMPEG_STREAM` "PIPELINE_STREAM"; the
code's names are kept here.) -/
def categorizeErrorSpec (error_message : String) : String :=
  let table : List (String × List (List String)) :=
    ERROR_PATTERNS ++ [("CONFIGURATION", []), ("NETWORK", [])]
  match table.find? (fun cp => cp.2.any (fun pat => reSearchCI pat error_message)) with
  | some cp => cp.1
  | none => "UNKNOWN"

/-! ## Retry policy (`RETRYABLE_CATEGORIES` line 53, `_isRetryable`
lines 1097–1101, `_getRetryDelay` lines 1103–1116) -/

def RETRYABLE_CATEGORIES : List String :=
  ["RESOURCE", "NETWORK", "ENCODER", "PROCESS", "STREAM_CHANGE",
   "VCEENCC_PARAM", "FFMPEG_STREAM"]

/-- `TSReplaceEncodingTask._isRetryable`. -/
def isRetryable (error_category : String) (retry_count max_retries : Nat) : Bool :=
  if retry_count ≥ max_retries then false
  else RETRYABLE_CATEGORIES.contains error_category

/-- The `base_delays` table inside `_getRetryDelay` (`dict.get` default 10). -/
def baseDelay (error_category : String) : Nat :=
  if error_category = "RESOURCE" then 30
  else if error_category = "NETWORK" then 10
  else if error_category = "ENCODER" then 5
  else if error_category = "PROCESS" then 15
  else if error_category = "STREAM_CHANGE" then 5
  else if error_category = "VCEENCC_PARAM" then 3
  else if error_category = "FFMPEG_STREAM" then 3
  else 10

/-- `TSReplaceEncodingTask._getRetryDelay`:
`min(base_delay * (2 ** retry_count), 300)`. -/
def getRetryDelay (error_category : String) (retry_count : Nat) : Nat :=
  min (baseDelay error_category * 2 ^ retry_count) 300

/-! ## Progress estimation (`_updateProgressFromOutput`, lines 223–278)

The four numeric progress regexes and the three completion regexes are
tried with `re.IGNORECASE`; the numeric ones are embedded as deterministic
parsers (their character classes are disjoint at every juncture, so greedy
parsing agrees with the regex engine), searched at every start position
(`re.search` leftmost semantics). -/

/-- Case-insensitive literal match at the head; returns the rest on success. -/
def litCI (lit : List Char) (s : List Char) : Option (List Char) :=
  if startsWithChars (lowerChars lit) (lowerChars (s.take lit.length)) then
    some (s.drop lit.length)
  else none

/-- Longest digit prefix (regex `\d*` greedy). -/
def takeDigits (s : List Char) : List Char × List Char :=
  (s.takeWhile Char.isDigit, s.dropWhile Char.isDigit)

def digitsToNat (ds : List Char) : Nat :=
  ds.foldl (fun acc c => acc * 10 + (c.toNat - '0'.toNat)) 0

/-- Regex `(\d+)`: one or more digits, as a `Nat`. -/
def parseNat (s : List Char) : Option (Nat × List Char) :=
  let (ds, rest) := takeDigits s
  if ds = [] then none else some (digitsToNat ds, rest)

/-- Regex `(\d+(?:\.\d+)?)`: the captured number as an exact rational.
If the `.` is not followed by digits the optional group backtracks away. -/
def parseNumber (s : List Char) : Option (ℚ × List Char) :=
  let (ds, rest) := takeDigits s
  if ds = [] then none
  else
    let intPart : ℚ := (digitsToNat ds : ℚ)
    match rest with
    | '.' :: rest2 =>
      let (fs, rest3) := takeDigits rest2
      if fs = [] then some (intPart, rest)
      else some (intPart + (digitsToNat fs : ℚ) / (10 : ℚ) ^ fs.length, rest3)
    | _ => some (intPart, rest)

/-- Regex `\s*` (greedy, always succeeds). -/
def skipSpaces (s : List Char) : List Char := s.dropWhile isPySpace

/-- `frames:\s*(\d+)/(\d+)\s*\((\d+(?:\.\d+)?)%\)` anchored at the head;
the extracted value is `float(match.group(3))`. -/
def pFramesAt (s : List Char) : Option ℚ := do
  let s ← litCI "frames:".toList s
  let s := skipSpaces s
  let (_n1, s) ← parseNat s
  let s ← litCI "/".toList s
  let (_n2, s) ← parseNat s
  let s := skipSpaces s
  let s ← litCI "(".toList s
  let (p, s) ← parseNumber s
  let s ← litCI "%".toList s
  let _ ← litCI ")".toList s
  pure p

/-- `\[(\d+(?:\.\d+)?)%\]` anchored at the head. -/
def pBracketAt (s : List Char) : Option ℚ := do
  let s ← litCI "[".toList s
  let (p, s) ← parseNumber s
  let s ← litCI "%".toList s
  let _ ← litCI "]".toList s
  pure p

/-- `Progress:\s*(\d+(?:\.\d+)?)%` anchored at the head. -/
def pProgressAt (s : List Char) : Option ℚ := do
  let s ← litCI "Progress:".toList s
  let s := skipSpaces s
  let (p, s) ← parseNumber s
  let _ ← litCI "%".toList s
  pure p

/-- `(\d+(?:\.\d+)?)%\s*complete` anchored at the head. -/
def pCompleteAt (s : List Char) : Option ℚ := do
  let (p, s) ← parseNumber s
  let s ← litCI "%".toList s
  let s := skipSpaces s
  let _ ← litCI "complete".toList s
  pure p

/-- `re.search`: try the anchored matcher at every start position,
leftmost success wins. -/
def searchPat (f : List Char → Option ℚ) : List Char → Option ℚ
  | [] => f []
  | c :: cs =>
    match f (c :: cs) with
    | some p => some p
    | none => searchPat f cs

/-- The `progress_patterns` loop (lines 250–270): patterns tried in order,
first structural match yields the captured number. -/
def extractProgress (line : List Char) : Option ℚ :=
  match searchPat pFramesAt line with
  | some p => some p
  | none =>
    match searchPat pBracketAt line with
    | some p => some p
    | none =>
      match searchPat pProgressAt line with
      | some p => some p
      | none => searchPat pCompleteAt line

/-- The `completion_patterns` list (line 240). -/
def completionPatterns : List (List String) :=
  [["encode completed"], ["encoding finished"], ["finished", "100%"]]

/-- The three instance attributes of `_updateProgressFromOutput` that are
created lazily (`hasattr(self, '_encoding_start_time')`). -/
structure ProgAux where
  encoding_start_time : ℚ
  last_progress_update : ℚ
  completion_detected : Bool
  deriving DecidableEq, Repr

/-- Progress state: `encoding_task.progress` plus the lazy attributes
(`none` until the first non-blank output line). -/
structure ProgState where
  progress : ℚ
  aux : Option ProgAux
  deriving DecidableEq, Repr

/-- `TSReplaceEncodingTask._updateProgressFromOutput(output_line)` called at
wall-clock time `t`.  Blank lines are ignored; on the first call the lazy
attributes are initialised and a zero progress is bumped to `1.0`; a
completion phrase forces `100.0` once; otherwise the first matching numeric
pattern overwrites `progress` with its value clamped to `[0, 100]` (even
when smaller than the current value); otherwise, 5 s after start and 5 s
after the last update, the time-based estimate
`min(elapsed / 3600 * 50, 95.0)` is substituted only if larger. -/
def updateProgressFromOutput (output_line : String) (t : ℚ) (st : ProgState) : ProgState :=
  if isBlankLine output_line then st
  else
    let a0 : ProgAux :=
      match st.aux with
      | none =>
        { encoding_start_time := t, last_progress_update := t, completion_detected := false }
      | some a => a
    let p0 : ℚ :=
      match st.aux with
      | none => if st.progress = 0 then 1 else st.progress
      | some _ => st.progress
    if completionPatterns.any (fun pat => reSearchCI pat output_line) ∧ ¬ a0.completion_detected then
      { progress := 100, aux := some { a0 with completion_detected := true } }
    else
      match extractProgress output_line.toList with
      | some p =>
        { progress := min (max p 0) 100, aux := some { a0 with last_progress_update := t } }
      | none =>
        let elapsed := t - a0.encoding_start_time
        if elapsed > 5 ∧ t - a0.last_progress_update > 5 then
          let estimated := min (elapsed / 3600 * 50) 95
          if estimated > p0 then
            { progress := estimated, aux := some { a0 with last_progress_update := t } }
          else { progress := p0, aux := some a0 }
        else { progress := p0, aux := some a0 }

/-! ## The encoding-file tracker (`EncodingFileTracker.py`)

`_encoding_files` is a `set` of paths and `_file_timestamps` a `dict` from
path to registration time; both are embedded as lists with set/map
semantics (the mutex serialises all operations, so each call is atomic). -/

structure TrackerState where
  encoding_files : List String
  file_timestamps : List (String × ℚ)
  deriving DecidableEq, Repr

/-- `EncodingFileTracker.addEncodingFile` at time `now`. -/
def addEncodingFile (t : TrackerState) (file_path : String) (now : ℚ) : TrackerState :=
  { encoding_files :=
      if t.encoding_files.contains file_path then t.encoding_files
      else t.encoding_files ++ [file_path],
    file_timestamps :=
      t.file_timestamps.filter (fun kv => kv.1 ≠ file_path) ++ [(file_path, now)] }

/-- `EncodingFileTracker.removeEncodingFile` (`set.discard` + `dict.pop`
with default: idempotent, no error when the path is absent). -/
def removeEncodingFile (t : TrackerState) (file_path : String) : TrackerState :=
  { encoding_files := t.encoding_files.filter (fun p => p ≠ file_path),
    file_timestamps := t.file_timestamps.filter (fun kv => kv.1 ≠ file_path) }

/-! ## Task state and the `execute()` retry loop

`EncodingTask` (schema defaults mirrored by `models/EncodingTask.py`:
`status='queued'`, `progress=0.0`, `retry_count=0`, `max_retry_count=3`)
plus the two instance flags of `TSReplaceEncodingTask`. -/

inductive Status
  | queued | processing | completed | failed | cancelled
  deriving DecidableEq, Repr

/-- The mutable execution state of one task (timestamp fields and the
result-size metrics, which no claim mentions, are omitted). -/
structure TaskState where
  status : Status
  progress : ℚ
  retry_count : Nat
  max_retry_count : Nat
  error_message : Option String
  is_cancelled : Bool
  is_finished : Bool
  deriving DecidableEq, Repr

def initialTaskState : TaskState :=
  { status := .queued, progress := 0, retry_count := 0, max_retry_count := 3,
    error_message := none, is_cancelled := false, is_finished := false }

/-- Immutable job description (the fields of the job used by the modelled
error texts and the tracker). -/
structure JobSpec where
  input_file_path : String
  output_file_path : String
  rec_file_id : Nat
  deriving DecidableEq, Repr

/-- Observable events of one job execution, in program order: every
assignment to `encoding_task.status` / `encoding_task.progress`, every
tracker add/remove for the job's output path, every entry into
`_executeEncoding` (one per attempt, tagged with the current retry count),
every completed backoff sleep (with its full delay in seconds), and every
run of `cancel()`. -/
inductive Event
  | statusSet (s : Status)
  | progressSet (p : ℚ)
  | attemptStarted (retry_count : Nat)
  | slept (delay : Nat)
  | trackerAdded (path : String)
  | trackerRemoved (path : String)
  | cancelRan
  deriving DecidableEq, Repr

/-- Full interpreter state for one job coroutine. -/
structure ExecState where
  task : TaskState
  prog_aux : Option ProgAux
  tracker : TrackerState
  trace : List Event
  deriving DecidableEq, Repr

def emit (st : ExecState) (e : Event) : ExecState :=
  { st with trace := st.trace ++ [e] }

def setStatus (st : ExecState) (s : Status) : ExecState :=
  emit { st with task := { st.task with status := s } } (.statusSet s)

def setProgress (st : ExecState) (p : ℚ) : ExecState :=
  emit { st with task := { st.task with progress := p } } (.progressSet p)

def setErrorMessage (st : ExecState) (m : String) : ExecState :=
  { st with task := { st.task with error_message := some m } }

/-- How `_prepareEncoding` (lines 616–669) ends: success, or one of its
four early-`False` paths, each with the error text it stores. -/
inductive PrepResult
  | ok
  | dbRecordNotFound (exc : String)
  | inputFileNotFound
  | insufficientDiskSpace
  | prepException (exc : String)
  deriving DecidableEq, Repr

/-- The `error_message` stored by a failing `_prepareEncoding`, or `none`
when preparation succeeds. -/
def prepError (job : JobSpec) : PrepResult → Option String
  | .ok => none
  | .dbRecordNotFound exc =>
    some ("Database record not found for RecordedVideo ID " ++
      toString job.rec_file_id ++ ": " ++ exc)
  | .inputFileNotFound => some ("Input file not found: " ++ job.input_file_path)
  | .insufficientDiskSpace =>
    some ("Insufficient disk space for encoding: " ++ job.output_file_path)
  | .prepException exc => some ("Preparation failed: " ++ exc)

/-- How one `_executeEncoding` call (lines 672–865) ends: the subprocess
exit code together with the post-processing result on exit 0, the
accumulated stderr on a non-zero exit, or an exception caught by the
method's own handler. -/
inductive AttemptResult
  | exitZeroPostOk
  | exitZeroPostFail
  | exitNonZero (returncode : Int) (stderr_text : String)
  | execException (exc : String)
  deriving DecidableEq, Repr

/-- Environment for one iteration of the `while` loop in `execute()`:
preparation result, output lines fed to `_updateProgressFromOutput` with
their wall-clock times, the attempt result, whether a concurrent `cancel()`
runs at a suspension point inside the attempt or during the backoff sleep,
and (`raisesAtLoop`) an exception escaping to the loop's own
`except Exception` handler in place of the normal iteration body. -/
structure AttemptSpec where
  prep : PrepResult
  output_lines : List (String × ℚ)
  result : AttemptResult
  cancelDuringAttempt : Bool
  cancelDuringSleep : Bool
  raisesAtLoop : Option String
  deriving DecidableEq, Repr

/-- The error message built at lines 821–844 for a non-zero exit code:
base text, stderr appended when non-empty, plus the substring-triggered
annotation tags (note that line 841 tests the literal string
`'Option.*cannot be applied'` with `in`). -/
def buildEncodingFailedMessage (returncode : Int) (stderr_text : String) : String :=
  let base := "TSReplace encoding failed with return code " ++ toString returncode
  if stderr_text = "" then base
  else
    let m := base ++ ": " ++ stderr_text
    let m := if strContains stderr_text "PMT" || strContains stderr_text "version" then
        m ++ " [PMT version change detected]" else m
    let m := if strContains stderr_text "storage->SetProperty" then
        m ++ " [VCEEncC parameter error detected]" else m
    let m := if strContains stderr_text "invalid param" then
        m ++ " [Invalid parameter error - may be resolved with retry]" else m
    let m := if strContains stderr_text "Stream mapping failed" ||
        strContains stderr_text "Cannot find stream" then
        m ++ " [FFmpeg stream mapping error - may be resolved with retry]" else m
    let m := if strContains stderr_text "Invalid data found when processing input" then
        m ++ " [Input data error - may be resolved with retry]" else m
    let m := if strContains stderr_text "Invalid frame dimensions" then
        m ++ " [Frame dimension error - may be resolved with retry]" else m
    let m := if strContains stderr_text "Option.*cannot be applied" ||
        strContains stderr_text "Error parsing options" then
        m ++ " [FFmpeg option error - may be resolved with retry]" else m
    m

/-- `TSReplaceEncodingTask.cancel()` (lines 1036–1066): set the cancel
flag, set `status = 'cancelled'`, terminate the subprocess, clean up, and
remove the output path from the tracker.  No check of the current status:
it runs the same from any state. -/
def cancelRun (job : JobSpec) (st : ExecState) : ExecState :=
  let st := emit st .cancelRan
  let st := { st with task := { st.task with is_cancelled := true } }
  let st := setStatus st .cancelled
  let st := { st with tracker := removeEncodingFile st.tracker job.output_file_path }
  emit st (.trackerRemoved job.output_file_path)

/-- `_handleEncodingFailure` (lines 894–915): re-categorises
`error_message or 'Unknown encoding error'` and stores the processed text
back (the text itself is unchanged unless it was `None`/empty). -/
def handleEncodingFailure (st : ExecState) : ExecState :=
  let msg := st.task.error_message.getD ""
  setErrorMessage st (if msg = "" then "Unknown encoding error" else msg)

/-- `_handleUnexpectedError` (lines 918–947): stores
`'Unexpected error: ' + str(error)`, then overwrites it with `str(error)`
when that is non-empty. -/
def handleUnexpectedError (exc : String) (st : ExecState) : ExecState :=
  setErrorMessage st (if exc = "" then "Unexpected error: " ++ exc else exc)

/-- `_shouldRetry` (lines 950–981): never retry once cancelled; otherwise
categorise `error_message or ''` and consult `_isRetryable`; on a positive
decision increment `retry_count`. -/
def shouldRetryRun (st : ExecState) : Bool × ExecState :=
  if st.task.is_cancelled then (false, st)
  else
    let category := categorizeError (st.task.error_message.getD "")
    if isRetryable category st.task.retry_count st.task.max_retry_count then
      (true, { st with task := { st.task with retry_count := st.task.retry_count + 1 } })
    else (false, st)

/-- `_waitForRetry` (lines 984–1000): sleep for
`_getRetryDelay(category, retry_count - 1)`.  The sleep is a plain
`asyncio.sleep`: a concurrent `cancel()` (modelled by
`cancelDuringSleep`) does not abort it, so the full delay elapses and the
cancel effects are applied alongside. -/
def waitForRetryRun (job : JobSpec) (a : AttemptSpec) (st : ExecState) : ExecState :=
  let category := categorizeError (st.task.error_message.getD "")
  let st := emit st (.slept (getRetryDelay category (st.task.retry_count - 1)))
  if a.cancelDuringSleep then cancelRun job st else st

/-- Deliver one output line to `_updateProgressFromOutput` at its wall
clock time and record the resulting progress value. -/
def feedLine (st : ExecState) (lt : String × ℚ) : ExecState :=
  let ps := updateProgressFromOutput lt.1 lt.2
    { progress := st.task.progress, aux := st.prog_aux }
  setProgress { st with prog_aux := ps.aux } ps.progress

/-- The `read_stdout` / `read_stderr` loops: lines in arrival order. -/
def feedOutputLines (lines : List (String × ℚ)) (st : ExecState) : ExecState :=
  lines.foldl feedLine st

/-- The part of `_executeEncoding` before the exit code is known: record
the attempt, bump a zero progress to `1.0` (line 703), let a concurrent
`cancel()` run if scheduled, feed the output lines. -/
def attemptPrelude (job : JobSpec) (a : AttemptSpec) (st : ExecState) : ExecState :=
  let st := emit st (.attemptStarted st.task.retry_count)
  let st := if st.task.progress = 0 then setProgress st 1 else st
  let st := if a.cancelDuringAttempt then cancelRun job st else st
  feedOutputLines a.output_lines st

/-- One `_executeEncoding` call: run the prelude, then interpret the
result: exit 0 sets progress to `100.0` (line 789) and succeeds or fails
with post-processing; a non-zero exit stores the built stderr message; an
exception stores `'Encoding execution failed: …'`. -/
def executeEncodingRun (job : JobSpec) (a : AttemptSpec) (st : ExecState) : Bool × ExecState :=
  let st := attemptPrelude job a st
  match a.result with
  | .exitZeroPostOk => (true, setProgress st 100)
  | .exitZeroPostFail =>
    (false, setErrorMessage (setProgress st 100) "Post-processing failed")
  | .exitNonZero returncode stderr_text =>
    (false, setErrorMessage st (buildEncodingFailedMessage returncode stderr_text))
  | .execException exc =>
    (false, setErrorMessage st ("Encoding execution failed: " ++ exc))

/-- Success finalisation (lines 563–582): `status = 'completed'`,
`progress = 100.0`, `_is_finished = True` (database update and
notification failures are swallowed). -/
def completedFinalize (st : ExecState) : ExecState :=
  let st := setStatus st .completed
  let st := setProgress st 100
  { st with task := { st.task with is_finished := true } }

/-- The post-loop finalisation (lines 595–607): unconditionally
`status = 'failed'`, `progress = 0.0`; the failure notification is merely
suppressed when `_is_cancelled` (the status write is not). -/
def failFinalize (st : ExecState) : ExecState :=
  setProgress (setStatus st .failed) 0

/-- Outcome of one iteration of the `while` body: `return` from
`execute()`, `break` out of the loop, or continue with the next
iteration. -/
inductive StepOutcome
  | ret (st : ExecState) (result : Bool)
  | brk (st : ExecState)
  | cont (st : ExecState)
  deriving Repr

/-- One iteration of the `try`/`except` body of the `while` loop
(lines 557–593). -/
def iterStep (job : JobSpec) (a : AttemptSpec) (st : ExecState) : StepOutcome :=
  match a.raisesAtLoop with
  | some exc =>
    let sr := shouldRetryRun (handleUnexpectedError exc st)
    if sr.1 then .cont (waitForRetryRun job a sr.2) else .brk sr.2
  | none =>
    match prepError job a.prep with
    | some m => .ret (setErrorMessage st m) false
    | none =>
      let er := executeEncodingRun job a st
      if er.1 then .ret (completedFinalize er.2) true
      else
        let sr := shouldRetryRun (handleEncodingFailure er.2)
        if sr.1 then .cont (waitForRetryRun job a sr.2) else .brk sr.2

/-- The `while self.encoding_task.retry_count <= self.encoding_task.max_retry_count`
loop.  `none` as the second component means the loop was left without a
`return` (condition false or `break`), so the `failed` finalisation runs.
The environment list bounds the iterations; every continuing iteration
strictly increases `retry_count`, so a list longer than
`max_retry_count + 1` is never exhausted. -/
def executeLoop (job : JobSpec) : List AttemptSpec → ExecState → ExecState × Option Bool
  | [], st => (st, none)
  | a :: rest, st =>
    if st.task.retry_count ≤ st.task.max_retry_count then
      match iterStep job a st with
      | .ret st' result => (st', some result)
      | .brk st' => (st', none)
      | .cont st' => executeLoop job rest st'
    else (st, none)

/-- The prologue of `execute()` (lines 542–553): set
`status = 'processing'` and register the output path in the tracker. -/
def startExecute (job : JobSpec) (now : ℚ) (st0 : ExecState) : ExecState :=
  let st := setStatus st0 .processing
  let st := { st with tracker := addEncodingFile st.tracker job.output_file_path now }
  emit st (.trackerAdded job.output_file_path)

/-- The `finally` block of `execute()` (lines 609–613): remove the output
path from the tracker. -/
def finishExecute (job : JobSpec) (st : ExecState) : ExecState :=
  emit { st with tracker := removeEncodingFile st.tracker job.output_file_path }
    (.trackerRemoved job.output_file_path)

/-- `TSReplaceEncodingTask.execute()` (lines 542–613), started at wall
clock `now`: run the prologue, run the retry loop, apply the `failed`
finalisation (lines 595–607) when the loop was left without returning, and
run the `finally` block. -/
def executeRun (job : JobSpec) (attempts : List AttemptSpec) (now : ℚ)
    (st0 : ExecState) : ExecState × Bool :=
  let st := startExecute job now st0
  let (st, r) := executeLoop job attempts st
  let (st, result) :=
    match r with
    | some b => (st, b)
    | none => (failFinalize st, false)
  (finishExecute job st, result)

/-- Fresh interpreter state over a given pre-existing tracker. -/
def initialExecState (tr : TrackerState) : ExecState :=
  { task := initialTaskState, prog_aux := none, tracker := tr, trace := [] }

/-! Trace projections used by the theorems. -/

def isAttemptStartedEvent : Event → Bool
  | .attemptStarted _ => true
  | _ => false

def attemptCount (trace : List Event) : Nat :=
  (trace.filter isAttemptStartedEvent).length

def sleptDelays (trace : List Event) : List Nat :=
  trace.filterMap (fun e => match e with | .slept d => some d | _ => none)

def progressValues (trace : List Event) : List ℚ :=
  trace.filterMap (fun e => match e with | .progressSet p => some p | _ => none)

/-- A list is non-decreasing in adjacent pairs. -/
def nonDecreasing : List ℚ → Bool
  | [] => true
  | [_] => true
  | a :: b :: rest => a ≤ b && nonDecreasing (b :: rest)

/-! ## The multiplexed broadcast loop
(`TSReplaceRouter.broadcast_progress_updates`, lines 54–147)

Each 1 Hz tick walks `_running_tasks`; a task enters the batch exactly when
`_last_broadcast_states` has no entry for it or the stored
`(status, progress rounded to 0.1)` pair differs from the current one, and
the stored pair is refreshed for emitted tasks.  Python `round(x, 1)`
(round half to even) is embedded exactly on rationals. -/

/-- Round half to even, to an integer. -/
def roundHalfEvenInt (x : ℚ) : ℤ :=
  let f := Rat.floor x
  let r := x - (f : ℚ)
  if r < 1 / 2 then f
  else if r > 1 / 2 then f + 1
  else if f % 2 = 0 then f else f + 1

/-- Python `round(x, 1)`. -/
def roundTo1 (x : ℚ) : ℚ := (roundHalfEvenInt (x * 10) : ℚ) / 10

/-- The per-task data the broadcast loop reads from a running task. -/
structure BroadcastTask where
  task_id : String
  status : Status
  progress : ℚ
  deriving DecidableEq, Repr

/-- `_last_broadcast_states`: `task_id ↦ (status, rounded progress)`. -/
def lookupLastState (m : List (String × Status × ℚ)) (id : String) :
    Option (Status × ℚ) :=
  (m.find? (fun kv => kv.1 = id)).map (fun kv => kv.2)

def setLastState (m : List (String × Status × ℚ)) (id : String)
    (v : Status × ℚ) : List (String × Status × ℚ) :=
  m.filter (fun kv => kv.1 ≠ id) ++ [(id, v)]

/-- Line 74: broadcast when there is no previous state or the status or the
rounded progress differs.  `current_progress` is already rounded (line 70). -/
def tickChanged (last : Option (Status × ℚ)) (current_status : Status)
    (current_progress : ℚ) : Bool :=
  match last with
  | none => true
  | some sp => sp.1 ≠ current_status ∨ sp.2 ≠ current_progress

/-- One body of the `for task_id, task in list(_running_tasks.items())`
loop, threading the batch and `_last_broadcast_states`. -/
def tickStep (acc : List String × List (String × Status × ℚ))
    (t : BroadcastTask) : List String × List (String × Status × ℚ) :=
  let current_progress := roundTo1 t.progress
  if tickChanged (lookupLastState acc.2 t.task_id) t.status current_progress then
    (acc.1 ++ [t.task_id], setLastState acc.2 t.task_id (t.status, current_progress))
  else acc

/-- One tick of `broadcast_progress_updates`: the ids of the emitted batch
(in iteration order) and the updated `_last_broadcast_states`. -/
def broadcastTick (tasks : List BroadcastTask)
    (last : List (String × Status × ℚ)) :
    List String × List (String × Status × ℚ) :=
  tasks.foldl tickStep ([], last)

/-! ## Concrete scenario inputs referenced by the theorems -/

def scenarioJob : JobSpec :=
  { input_file_path := "/rec/a.ts", output_file_path := "/rec/a_h264.ts",
    rec_file_id := 1 }

def emptyTracker : TrackerState := { encoding_files := [], file_timestamps := [] }

/-- An attempt whose transcoder exits 1 with stderr `"Stream mapping failed"`
(the spec's mock for the exhausted-retries scenario). -/
def streamMappingFailAttempt : AttemptSpec :=
  { prep := .ok, output_lines := [], result := .exitNonZero 1 "Stream mapping failed",
    cancelDuringAttempt := false, cancelDuringSleep := false, raisesAtLoop := none }

/-- Exhausted-retries scenario: every attempt fails with the retryable
stream-mapping error; `max_retry_count = 3`. -/
def exhaustedRetriesRun : ExecState × Bool :=
  executeRun scenarioJob (List.replicate 5 streamMappingFailAttempt) 0
    (initialExecState emptyTracker)

/-- An attempt whose transcoder exits 1 with stderr
`"No such file or directory"` (classified FILE_ACCESS). -/
def fileAccessFailAttempt : AttemptSpec :=
  { streamMappingFailAttempt with result := .exitNonZero 1 "No such file or directory" }

def fileAccessRun : ExecState × Bool :=
  executeRun scenarioJob [fileAccessFailAttempt, fileAccessFailAttempt] 0
    (initialExecState emptyTracker)

/-- First attempt fails with retryable `"Out of memory"` and `cancel()`
arrives during the following backoff sleep. -/
def oomCancelMidSleepAttempt : AttemptSpec :=
  { streamMappingFailAttempt with
    result := .exitNonZero 1 "Out of memory", cancelDuringSleep := true }

def oomFailAttempt : AttemptSpec :=
  { streamMappingFailAttempt with result := .exitNonZero 1 "Out of memory" }

def cancelMidSleepRun : ExecState × Bool :=
  executeRun scenarioJob [oomCancelMidSleepAttempt, oomFailAttempt, oomFailAttempt] 0
    (initialExecState emptyTracker)

/-- A successful attempt whose parsed output reports 100 % and then 50 %. -/
def decreasingLinesAttempt : AttemptSpec :=
  { streamMappingFailAttempt with
    result := .exitZeroPostOk,
    output_lines := [("frames: 100/100 (100%)", 0), ("frames: 50/100 (50%)", 1)] }

def decreasingProgressRun : ExecState × Bool :=
  executeRun scenarioJob [decreasingLinesAttempt] 0 (initialExecState emptyTracker)

/-- A task that has already reached the terminal state `completed`. -/
def completedTaskState : ExecState :=
  { task := { initialTaskState with status := .completed, progress := 100 },
    prog_aux := none, tracker := emptyTracker, trace := [] }

/-- An attempt whose preparation fails because the input file is missing. -/
def prepFailAttempt : AttemptSpec :=
  { streamMappingFailAttempt with prep := .inputFileNotFound }

def prepFailRun : ExecState × Bool :=
  executeRun scenarioJob [prepFailAttempt, streamMappingFailAttempt] 0
    (initialExecState emptyTracker)

/-- Broadcast-tick scenario: both jobs were last broadcast at
`(processing, 50.0)`; one has moved by 0.05, the other by 0.2. -/
def tickTasks : List BroadcastTask :=
  [ { task_id := "job1", status := .processing, progress := 50.05 },
    { task_id := "job2", status := .processing, progress := 50.2 } ]

def tickLast : List (String × Status × ℚ) :=
  [("job1", Status.processing, 50), ("job2", Status.processing, 50)]

/-! # Theorems -/

/-! ## Helper facts about the classifier table -/

/-- Neither of the two pattern-free spec categories can ever be selected,
so the spec-side table agrees with the code's seven-entry table. -/
theorem find?_spec_table_eq (msg : String) :
    (ERROR_PATTERNS ++ [("CONFIGURATION", []), ("NETWORK", [])]).find?
        (fun cp => cp.2.any (fun pat => reSearchCI pat msg)) =
      ERROR_PATTERNS.find? (fun cp => cp.2.any (fun pat => reSearchCI pat msg)) := by
  rw [List.find?_append]
  cases h : ERROR_PATTERNS.find? (fun cp => cp.2.any (fun pat => reSearchCI pat msg)) with
  | some cp => rfl
  | none => rfl

/-- **C5.** Error classification: for every input error string, the
classifier returns the first category, in the fixed category order, having
at least one pattern that matches the string case-insensitively, and
returns UNKNOWN when no pattern of any category matches — including the
empty string, for which the guard clause of `_categorizeError` and the
default agree. -/
theorem categorizeError_eq_spec (msg : String) :
    categorizeError msg = categorizeErrorSpec msg := by
  by_cases h : msg = ""
  · subst h
    with_unfolding_all decide
  · unfold categorizeError categorizeErrorSpec
    simp only [if_neg h, find?_spec_table_eq]

/-- **C6.** Non-retryable short-circuit: the retry decision returns true
only for categories in the retryable set and never for FILE_ACCESS,
CONFIGURATION or UNKNOWN; and a FILE_ACCESS-classified failure on the
first attempt produces terminal status `failed` with `retry_count == 0`
after a single attempt. -/
theorem isRetryable_only_retryable_categories :
    (∀ retry_count max_retries, isRetryable "FILE_ACCESS" retry_count max_retries = false) ∧
    (∀ retry_count max_retries, isRetryable "CONFIGURATION" retry_count max_retries = false) ∧
    (∀ retry_count max_retries, isRetryable "UNKNOWN" retry_count max_retries = false) ∧
    (∀ category retry_count max_retries,
      isRetryable category retry_count max_retries = true →
        category ∈ RETRYABLE_CATEGORIES) ∧
    (fileAccessRun.2 = false ∧ fileAccessRun.1.task.status = Status.failed ∧
      fileAccessRun.1.task.retry_count = 0 ∧ attemptCount fileAccessRun.1.trace = 1) := by
  refine ⟨?_, ?_, ?_, ?_, ?_⟩
  · intro rc mr; unfold isRetryable; split
    · rfl
    · with_unfolding_all decide
  · intro rc mr; unfold isRetryable; split
    · rfl
    · with_unfolding_all decide
  · intro rc mr; unfold isRetryable; split
    · rfl
    · with_unfolding_all decide
  · intro category rc mr h
    unfold isRetryable at h
    split at h
    · exact absurd h (by simp)
    · exact List.mem_of_elem_eq_true h
  · with_unfolding_all decide

/-- Witness for the implication hypothesis of C6's theorem at the concrete
category RESOURCE with `retry_count = 0 < 3 = max_retries`. -/
theorem isRetryable_only_retryable_categories_witness :
    isRetryable "RESOURCE" 0 3 = true ∧ "RESOURCE" ∈ RETRYABLE_CATEGORIES :=
  ⟨by with_unfolding_all decide,
    isRetryable_only_retryable_categories.2.2.2.1 "RESOURCE" 0 3
      (by with_unfolding_all decide)⟩

/-- **C7.** Backoff formula: for every error category and zero-based
attempt index `i`, the computed delay is `min(base_delay * 2^i, 300)`
seconds with the base-delay table of `_getRetryDelay` (`RESOURCE` 30,
`NETWORK` 10, `ENCODER` 5, `PROCESS` 15, `STREAM_CHANGE` 5,
`VCEENCC_PARAM` — the spec's ENCODER_PARAM — 3, `FFMPEG_STREAM` — the
spec's PIPELINE_STREAM — 3, every other category 10); in particular
`RESOURCE` at indices 0, 1, 2 yields 30, 60, 120. -/
theorem getRetryDelay_backoff_formula :
    (∀ i, getRetryDelay "RESOURCE" i = min (30 * 2 ^ i) 300) ∧
    (∀ i, getRetryDelay "NETWORK" i = min (10 * 2 ^ i) 300) ∧
    (∀ i, getRetryDelay "ENCODER" i = min (5 * 2 ^ i) 300) ∧
    (∀ i, getRetryDelay "PROCESS" i = min (15 * 2 ^ i) 300) ∧
    (∀ i, getRetryDelay "STREAM_CHANGE" i = min (5 * 2 ^ i) 300) ∧
    (∀ i, getRetryDelay "VCEENCC_PARAM" i = min (3 * 2 ^ i) 300) ∧
    (∀ i, getRetryDelay "FFMPEG_STREAM" i = min (3 * 2 ^ i) 300) ∧
    (∀ category i, category ∉ RETRYABLE_CATEGORIES →
      getRetryDelay category i = min (10 * 2 ^ i) 300) ∧
    (getRetryDelay "RESOURCE" 0 = 30 ∧ getRetryDelay "RESOURCE" 1 = 60 ∧
      getRetryDelay "RESOURCE" 2 = 120) := by
  refine ⟨fun i => rfl, fun i => rfl, fun i => rfl, fun i => rfl, fun i => rfl,
    fun i => rfl, fun i => rfl, ?_, by with_unfolding_all decide⟩
  intro category i h
  simp only [RETRYABLE_CATEGORIES, List.mem_cons, List.not_mem_nil, or_false,
    not_or] at h
  obtain ⟨h1, h2, h3, h4, h5, h6, h7⟩ := h
  unfold getRetryDelay baseDelay
  simp [h1, h2, h3, h4, h5, h6, h7]

/-- Witness for the default-base-delay hypothesis of C7's theorem at the
concrete category UNKNOWN and index 1. -/
theorem getRetryDelay_backoff_formula_witness :
    "UNKNOWN" ∉ RETRYABLE_CATEGORIES ∧ getRetryDelay "UNKNOWN" 1 = min (10 * 2 ^ 1) 300 :=
  ⟨by with_unfolding_all decide,
    getRetryDelay_backoff_formula.2.2.2.2.2.2.2.1 "UNKNOWN" 1
      (by with_unfolding_all decide)⟩

/-! ## Tracker lemmas -/

theorem removeEncodingFile_idem (t : TrackerState) (p : String) :
    removeEncodingFile (removeEncodingFile t p) p = removeEncodingFile t p := by
  unfold removeEncodingFile
  simp [List.filter_filter]

/-- `remove` is the identity on a tracker that does not hold the path. -/
theorem removeEncodingFile_absent (t : TrackerState) (p : String)
    (h1 : ∀ q ∈ t.encoding_files, q ≠ p)
    (h2 : ∀ kv ∈ t.file_timestamps, kv.1 ≠ p) :
    removeEncodingFile t p = t := by
  obtain ⟨fs, ts⟩ := t
  unfold removeEncodingFile
  have e1 : fs.filter (fun q => q ≠ p) = fs :=
    List.filter_eq_self.mpr (fun a ha => by simpa using h1 a ha)
  have e2 : ts.filter (fun kv => kv.1 ≠ p) = ts :=
    List.filter_eq_self.mpr (fun a ha => by simpa using h2 a ha)
  rw [e1, e2]

/-- `remove ∘ add` restores a tracker that did not hold the path. -/
theorem removeEncodingFile_add (t : TrackerState) (p : String) (now : ℚ)
    (h1 : ∀ q ∈ t.encoding_files, q ≠ p)
    (h2 : ∀ kv ∈ t.file_timestamps, kv.1 ≠ p) :
    removeEncodingFile (addEncodingFile t p now) p = t := by
  obtain ⟨fs, ts⟩ := t
  unfold removeEncodingFile addEncodingFile
  have e1 : fs.filter (fun q => q ≠ p) = fs :=
    List.filter_eq_self.mpr (fun a ha => by simpa using h1 a ha)
  have e2 : ts.filter (fun kv => kv.1 ≠ p) = ts :=
    List.filter_eq_self.mpr (fun a ha => by simpa using h2 a ha)
  have e3 : List.filter (fun q => q ≠ p) [p] = [] := by simp
  have e4 : List.filter (fun kv => kv.1 ≠ p) [(p, now)] = ([] : List (String × ℚ)) := by simp
  have hni : ¬ (fs.contains p = true) := fun hcc =>
    (h1 p (List.mem_of_elem_eq_true hcc)) rfl
  congr 1
  · rw [if_neg hni, List.filter_append, e1, e3, List.append_nil]
  · rw [List.filter_append, e2, e2, e4, List.append_nil]

/-! ## Effects of the interpreter steps

`NonCountingStep job st st'` records what every step other than
`_shouldRetry` does to the retry counters, the tracker and the event trace;
`LoopStep` additionally allows one guarded `retry_count` increment. -/

def NonCountingStep (job : JobSpec) (st st' : ExecState) : Prop :=
  st'.task.retry_count = st.task.retry_count ∧
  st'.task.max_retry_count = st.task.max_retry_count ∧
  (st'.tracker = st.tracker ∨
    st'.tracker = removeEncodingFile st.tracker job.output_file_path) ∧
  ∃ evs, st'.trace = st.trace ++ evs ∧
    (∀ n, Event.attemptStarted n ∈ evs → n ≤ st.task.max_retry_count)

def LoopStep (job : JobSpec) (st st' : ExecState) : Prop :=
  (st'.task.retry_count = st.task.retry_count ∨
    (st'.task.retry_count = st.task.retry_count + 1 ∧
      st.task.retry_count < st.task.max_retry_count)) ∧
  st'.task.max_retry_count = st.task.max_retry_count ∧
  (st'.tracker = st.tracker ∨
    st'.tracker = removeEncodingFile st.tracker job.output_file_path) ∧
  ∃ evs, st'.trace = st.trace ++ evs ∧
    (∀ n, Event.attemptStarted n ∈ evs → n ≤ st.task.max_retry_count)

theorem NonCountingStep.refl (job : JobSpec) (st : ExecState) :
    NonCountingStep job st st :=
  ⟨rfl, rfl, Or.inl rfl, [], (List.append_nil _).symm, by simp⟩

theorem NonCountingStep.comp {job : JobSpec} {st st' st'' : ExecState}
    (h1 : NonCountingStep job st st') (h2 : NonCountingStep job st' st'') :
    NonCountingStep job st st'' := by
  obtain ⟨r1, m1, t1, evs1, e1, b1⟩ := h1
  obtain ⟨r2, m2, t2, evs2, e2, b2⟩ := h2
  refine ⟨r2.trans r1, m2.trans m1, ?_, evs1 ++ evs2, ?_, ?_⟩
  · rcases t2 with t2 | t2 <;> rcases t1 with t1 | t1 <;>
      rw [t2, t1] <;> simp [removeEncodingFile_idem]
  · rw [e2, e1, List.append_assoc]
  · intro n hn
    rcases List.mem_append.mp hn with hn | hn
    · exact b1 n hn
    · exact (m1 ▸ b2 n hn)

theorem NonCountingStep.toLoopStep {job : JobSpec} {st st' : ExecState}
    (h : NonCountingStep job st st') : LoopStep job st st' :=
  ⟨Or.inl h.1, h.2.1, h.2.2.1, h.2.2.2⟩

theorem NonCountingStep.compLoopStep {job : JobSpec} {st st' st'' : ExecState}
    (h1 : NonCountingStep job st st') (h2 : LoopStep job st' st'') :
    LoopStep job st st'' := by
  obtain ⟨r1, m1, t1, evs1, e1, b1⟩ := h1
  obtain ⟨r2, m2, t2, evs2, e2, b2⟩ := h2
  refine ⟨?_, m2.trans m1, ?_, evs1 ++ evs2, ?_, ?_⟩
  · rcases r2 with r2 | ⟨r2, hlt⟩
    · exact Or.inl (r2.trans r1)
    · exact Or.inr ⟨by rw [r2, r1], by rw [← r1, ← m1]; exact hlt⟩
  · rcases t2 with t2 | t2 <;> rcases t1 with t1 | t1 <;>
      rw [t2, t1] <;> simp [removeEncodingFile_idem]
  · rw [e2, e1, List.append_assoc]
  · intro n hn
    rcases List.mem_append.mp hn with hn | hn
    · exact b1 n hn
    · exact (m1 ▸ b2 n hn)

theorem LoopStep.compNcs {job : JobSpec} {st st' st'' : ExecState}
    (h1 : LoopStep job st st') (h2 : NonCountingStep job st' st'') :
    LoopStep job st st'' := by
  obtain ⟨r1, m1, t1, evs1, e1, b1⟩ := h1
  obtain ⟨r2, m2, t2, evs2, e2, b2⟩ := h2
  refine ⟨?_, m2.trans m1, ?_, evs1 ++ evs2, ?_, ?_⟩
  · rcases r1 with r1 | ⟨r1, hlt⟩
    · exact Or.inl (r2.trans r1)
    · exact Or.inr ⟨by rw [r2, r1], hlt⟩
  · rcases t2 with t2 | t2 <;> rcases t1 with t1 | t1 <;>
      rw [t2, t1] <;> simp [removeEncodingFile_idem]
  · rw [e2, e1, List.append_assoc]
  · intro n hn
    rcases List.mem_append.mp hn with hn | hn
    · exact b1 n hn
    · exact (m1 ▸ b2 n hn)

/-! ## Projection lemmas for the interpreter primitives -/

@[simp] theorem emit_task (st : ExecState) (e : Event) : (emit st e).task = st.task := rfl

@[simp] theorem emit_tracker (st : ExecState) (e : Event) :
    (emit st e).tracker = st.tracker := rfl

@[simp] theorem emit_trace (st : ExecState) (e : Event) :
    (emit st e).trace = st.trace ++ [e] := rfl

@[simp] theorem setStatus_task (st : ExecState) (s : Status) :
    (setStatus st s).task = { st.task with status := s } := rfl

@[simp] theorem setProgress_task (st : ExecState) (p : ℚ) :
    (setProgress st p).task = { st.task with progress := p } := rfl

@[simp] theorem setErrorMessage_task (st : ExecState) (m : String) :
    (setErrorMessage st m).task = { st.task with error_message := some m } := rfl

@[simp] theorem cancelRun_task (job : JobSpec) (st : ExecState) :
    (cancelRun job st).task =
      { st.task with is_cancelled := true, status := Status.cancelled } := rfl

@[simp] theorem cancelRun_tracker (job : JobSpec) (st : ExecState) :
    (cancelRun job st).tracker = removeEncodingFile st.tracker job.output_file_path := rfl

/-! ## `NonCountingStep` facts for each step function -/

theorem ncs_emit_nonattempt (job : JobSpec) (st : ExecState) (e : Event)
    (he : ∀ n, e ≠ Event.attemptStarted n) :
    NonCountingStep job st (emit st e) :=
  ⟨rfl, rfl, Or.inl rfl, [e], rfl,
    fun n hn => ((he n) (List.mem_singleton.mp hn).symm).elim⟩

theorem ncs_setStatus (job : JobSpec) (st : ExecState) (s : Status) :
    NonCountingStep job st (setStatus st s) :=
  ⟨rfl, rfl, Or.inl rfl, [.statusSet s], rfl, fun n hn => by simp at hn⟩

theorem ncs_setProgress (job : JobSpec) (st : ExecState) (p : ℚ) :
    NonCountingStep job st (setProgress st p) :=
  ⟨rfl, rfl, Or.inl rfl, [.progressSet p], rfl, fun n hn => by simp at hn⟩

theorem ncs_setErrorMessage (job : JobSpec) (st : ExecState) (m : String) :
    NonCountingStep job st (setErrorMessage st m) :=
  ⟨rfl, rfl, Or.inl rfl, [], (List.append_nil _).symm, fun n hn => by simp at hn⟩

theorem ncs_cancelRun (job : JobSpec) (st : ExecState) :
    NonCountingStep job st (cancelRun job st) := by
  refine ⟨rfl, rfl, Or.inr rfl,
    [.cancelRan, .statusSet Status.cancelled, .trackerRemoved job.output_file_path],
    ?_, fun n hn => by simp at hn⟩
  simp [cancelRun, setStatus, emit]

theorem ncs_handleEncodingFailure (job : JobSpec) (st : ExecState) :
    NonCountingStep job st (handleEncodingFailure st) :=
  ⟨rfl, rfl, Or.inl rfl, [], (List.append_nil _).symm, fun n hn => by simp at hn⟩

theorem ncs_handleUnexpectedError (job : JobSpec) (exc : String) (st : ExecState) :
    NonCountingStep job st (handleUnexpectedError exc st) :=
  ⟨rfl, rfl, Or.inl rfl, [], (List.append_nil _).symm, fun n hn => by simp at hn⟩

theorem ncs_completedFinalize (job : JobSpec) (st : ExecState) :
    NonCountingStep job st (completedFinalize st) := by
  refine ⟨rfl, rfl, Or.inl rfl,
    [.statusSet Status.completed, .progressSet 100], ?_, fun n hn => by simp at hn⟩
  simp [completedFinalize, setStatus, setProgress, emit]

theorem ncs_failFinalize (job : JobSpec) (st : ExecState) :
    NonCountingStep job st (failFinalize st) := by
  refine ⟨rfl, rfl, Or.inl rfl,
    [.statusSet Status.failed, .progressSet 0], ?_, fun n hn => by simp at hn⟩
  simp [failFinalize, setStatus, setProgress, emit]

theorem ncs_waitForRetryRun (job : JobSpec) (a : AttemptSpec) (st : ExecState) :
    NonCountingStep job st (waitForRetryRun job a st) := by
  unfold waitForRetryRun
  by_cases hc : a.cancelDuringSleep
  · simp only [hc, if_true]
    exact (ncs_emit_nonattempt job st _ (fun n => by simp)).comp
      (ncs_cancelRun job _)
  · simp only [hc, if_false]
    exact ncs_emit_nonattempt job st _ (fun n => by simp)

theorem ncs_feedLine (job : JobSpec) (st : ExecState) (lt : String × ℚ) :
    NonCountingStep job st (feedLine st lt) :=
  ⟨rfl, rfl, Or.inl rfl, [.progressSet
      (updateProgressFromOutput lt.1 lt.2
        { progress := st.task.progress, aux := st.prog_aux }).progress],
    rfl, fun n hn => by simp at hn⟩

theorem ncs_feedOutputLines (job : JobSpec) (lines : List (String × ℚ)) (st : ExecState) :
    NonCountingStep job st (feedOutputLines lines st) := by
  induction lines generalizing st with
  | nil => exact NonCountingStep.refl job st
  | cons l ls ih =>
    have h1 : feedOutputLines (l :: ls) st = feedOutputLines ls (feedLine st l) := rfl
    rw [h1]
    exact (ncs_feedLine job st l).comp (ih (feedLine st l))

theorem ncs_attemptPrelude (job : JobSpec) (a : AttemptSpec) (st : ExecState)
    (hrc : st.task.retry_count ≤ st.task.max_retry_count) :
    NonCountingStep job st (attemptPrelude job a st) := by
  have h0 : NonCountingStep job st (emit st (.attemptStarted st.task.retry_count)) :=
    ⟨rfl, rfl, Or.inl rfl, [.attemptStarted st.task.retry_count], rfl,
      fun n hn => by simp at hn; omega⟩
  unfold attemptPrelude
  simp only [emit_task]
  by_cases hp : st.task.progress = 0 <;> by_cases hca : a.cancelDuringAttempt <;>
    simp only [hp, hca, if_true, if_false] <;>
  · first
    | exact ((h0.comp (ncs_setProgress job _ 1)).comp (ncs_cancelRun job _)).comp
        (ncs_feedOutputLines job a.output_lines _)
    | exact (h0.comp (ncs_setProgress job _ 1)).comp
        (ncs_feedOutputLines job a.output_lines _)
    | exact (h0.comp (ncs_cancelRun job _)).comp
        (ncs_feedOutputLines job a.output_lines _)
    | exact h0.comp (ncs_feedOutputLines job a.output_lines _)

theorem ncs_executeEncodingRun (job : JobSpec) (a : AttemptSpec) (st : ExecState)
    (hrc : st.task.retry_count ≤ st.task.max_retry_count) :
    NonCountingStep job st (executeEncodingRun job a st).2 := by
  have hpre := ncs_attemptPrelude job a st hrc
  unfold executeEncodingRun
  cases a.result with
  | exitZeroPostOk => exact hpre.comp (ncs_setProgress job _ 100)
  | exitZeroPostFail =>
    exact hpre.comp ((ncs_setProgress job _ 100).comp (ncs_setErrorMessage job _ _))
  | exitNonZero returncode stderr_text => exact hpre.comp (ncs_setErrorMessage job _ _)
  | execException exc => exact hpre.comp (ncs_setErrorMessage job _ _)

/-! ## The retry decision and the loop invariant -/

theorem isRetryable_lt {c : String} {rc mr : Nat}
    (h : isRetryable c rc mr = true) : rc < mr := by
  unfold isRetryable at h
  split at h
  · exact absurd h (by simp)
  · next hge => omega

theorem loopStep_shouldRetryRun (job : JobSpec) (st : ExecState) :
    LoopStep job st (shouldRetryRun st).2 := by
  simp only [shouldRetryRun]
  split
  · exact (NonCountingStep.refl job st).toLoopStep
  · split
    · next h =>
      exact ⟨Or.inr ⟨rfl, isRetryable_lt h⟩, rfl, Or.inl rfl, [],
        (List.append_nil _).symm, fun n hn => by simp at hn⟩
    · exact (NonCountingStep.refl job st).toLoopStep

/-- Whatever one iteration of the retry-loop body does, its outcome state
is reached by a `LoopStep`. -/
theorem iterStep_effect (job : JobSpec) (a : AttemptSpec) (st : ExecState)
    (hrc : st.task.retry_count ≤ st.task.max_retry_count) :
    match iterStep job a st with
    | .ret st' _ => LoopStep job st st'
    | .brk st' => LoopStep job st st'
    | .cont st' => LoopStep job st st' := by
  simp only [iterStep]
  cases hra : a.raisesAtLoop with
  | some exc =>
    have h3 := (ncs_handleUnexpectedError job exc st).compLoopStep
      (loopStep_shouldRetryRun job (handleUnexpectedError exc st))
    cases hb : (shouldRetryRun (handleUnexpectedError exc st)).1 <;> simp only [hb]
    · simp only [Bool.false_eq_true, if_false]
      exact h3
    · simp only [if_true]
      exact h3.compNcs (ncs_waitForRetryRun job a _)
  | none =>
    cases hp : prepError job a.prep with
    | some m => exact (ncs_setErrorMessage job st m).toLoopStep
    | none =>
      have hex := ncs_executeEncodingRun job a st hrc
      cases hb : (executeEncodingRun job a st).1 <;> simp only [hb]
      · have h5 := (hex.comp
            (ncs_handleEncodingFailure job (executeEncodingRun job a st).2)).compLoopStep
          (loopStep_shouldRetryRun job
            (handleEncodingFailure (executeEncodingRun job a st).2))
        cases hb2 :
            (shouldRetryRun (handleEncodingFailure (executeEncodingRun job a st).2)).1 <;>
          simp only [hb2, Bool.false_eq_true, if_false, if_true]
        · exact h5
        · exact h5.compNcs (ncs_waitForRetryRun job a _)
      · simp only [if_true]
        exact (hex.comp (ncs_completedFinalize job (executeEncodingRun job a st).2)).toLoopStep

/-- Definitional unfolding of `executeLoop` on a non-empty environment. -/
theorem executeLoop_cons (job : JobSpec) (a : AttemptSpec) (rest : List AttemptSpec)
    (st : ExecState) :
    executeLoop job (a :: rest) st =
      if st.task.retry_count ≤ st.task.max_retry_count then
        match iterStep job a st with
        | .ret st' result => (st', some result)
        | .brk st' => (st', none)
        | .cont st' => executeLoop job rest st'
      else (st, none) := rfl

/-- Transfer of the loop invariant across one `LoopStep`. -/
theorem loopStep_transfer {job : JobSpec} {st st' : ExecState} {T : TrackerState}
    (hstep : LoopStep job st st')
    (h1 : st.task.retry_count ≤ st.task.max_retry_count)
    (h2 : st.tracker = T ∨ st.tracker = removeEncodingFile T job.output_file_path)
    (h3 : ∀ n, Event.attemptStarted n ∈ st.trace → n ≤ st.task.max_retry_count) :
    st'.task.retry_count ≤ st'.task.max_retry_count ∧
    st'.task.max_retry_count = st.task.max_retry_count ∧
    (st'.tracker = T ∨ st'.tracker = removeEncodingFile T job.output_file_path) ∧
    (∀ n, Event.attemptStarted n ∈ st'.trace → n ≤ st'.task.max_retry_count) := by
  obtain ⟨hrc, hmax, htr, evs, hev, hbd⟩ := hstep
  refine ⟨?_, hmax, ?_, ?_⟩
  · rcases hrc with h | ⟨h, hlt⟩ <;> omega
  · rcases htr with h | h
    · rw [h]; exact h2
    · rcases h2 with h2 | h2
      · rw [h, h2]; exact Or.inr rfl
      · rw [h, h2, removeEncodingFile_idem]; exact Or.inr rfl
  · intro n hn
    rw [hev] at hn
    rw [hmax]
    rcases List.mem_append.mp hn with hn | hn
    · exact h3 n hn
    · exact hbd n hn

/-- Invariant of the `while` loop of `execute()`: the retry count stays
within `max_retry_count`, `max_retry_count` is constant, the tracker is
touched only by removals of the job's output path, and every attempt is
recorded with a retry count within the bound. -/
theorem executeLoop_invariants (job : JobSpec) (attempts : List AttemptSpec)
    (st : ExecState) (T : TrackerState)
    (h1 : st.task.retry_count ≤ st.task.max_retry_count)
    (h2 : st.tracker = T ∨ st.tracker = removeEncodingFile T job.output_file_path)
    (h3 : ∀ n, Event.attemptStarted n ∈ st.trace → n ≤ st.task.max_retry_count) :
    (executeLoop job attempts st).1.task.retry_count ≤
      (executeLoop job attempts st).1.task.max_retry_count ∧
    (executeLoop job attempts st).1.task.max_retry_count = st.task.max_retry_count ∧
    ((executeLoop job attempts st).1.tracker = T ∨
      (executeLoop job attempts st).1.tracker =
        removeEncodingFile T job.output_file_path) ∧
    (∀ n, Event.attemptStarted n ∈ (executeLoop job attempts st).1.trace →
      n ≤ st.task.max_retry_count) := by
  induction attempts generalizing st with
  | nil => exact ⟨h1, rfl, h2, h3⟩
  | cons a rest ih =>
    rw [executeLoop_cons, if_pos h1]
    have hstep := iterStep_effect job a st h1
    cases hio : iterStep job a st with
    | ret st' res =>
      rw [hio] at hstep
      obtain ⟨g1, g2, g3, g4⟩ := loopStep_transfer hstep h1 h2 h3
      exact ⟨g1, g2, g3, fun n hn => g2 ▸ g4 n hn⟩
    | brk st' =>
      rw [hio] at hstep
      obtain ⟨g1, g2, g3, g4⟩ := loopStep_transfer hstep h1 h2 h3
      exact ⟨g1, g2, g3, fun n hn => g2 ▸ g4 n hn⟩
    | cont st' =>
      rw [hio] at hstep
      obtain ⟨g1, g2, g3, g4⟩ := loopStep_transfer hstep h1 h2 h3
      obtain ⟨k1, k2, k3, k4⟩ := ih st' g1 g3 g4
      exact ⟨k1, k2.trans g2, k3, fun n hn => g2 ▸ k4 n hn⟩

/-! ## `executeRun` decomposition -/

theorem executeRun_eq (job : JobSpec) (attempts : List AttemptSpec) (now : ℚ)
    (st0 : ExecState) :
    executeRun job attempts now st0 =
      match executeLoop job attempts (startExecute job now st0) with
      | (st1, some b) => (finishExecute job st1, b)
      | (st1, none) => (finishExecute job (failFinalize st1), false) := by
  simp only [executeRun]
  rcases hE : executeLoop job attempts (startExecute job now st0) with ⟨st1, r⟩
  cases r <;> rfl

@[simp] theorem startExecute_task (job : JobSpec) (now : ℚ) (st0 : ExecState) :
    (startExecute job now st0).task = { st0.task with status := Status.processing } := rfl

@[simp] theorem startExecute_tracker (job : JobSpec) (now : ℚ) (st0 : ExecState) :
    (startExecute job now st0).tracker =
      addEncodingFile st0.tracker job.output_file_path now := rfl

@[simp] theorem startExecute_trace (job : JobSpec) (now : ℚ) (st0 : ExecState) :
    (startExecute job now st0).trace =
      (st0.trace ++ [Event.statusSet Status.processing]) ++
        [Event.trackerAdded job.output_file_path] := rfl

@[simp] theorem finishExecute_task (job : JobSpec) (st : ExecState) :
    (finishExecute job st).task = st.task := rfl

@[simp] theorem finishExecute_tracker (job : JobSpec) (st : ExecState) :
    (finishExecute job st).tracker =
      removeEncodingFile st.tracker job.output_file_path := rfl

@[simp] theorem finishExecute_trace (job : JobSpec) (st : ExecState) :
    (finishExecute job st).trace =
      st.trace ++ [Event.trackerRemoved job.output_file_path] := rfl

@[simp] theorem failFinalize_task (st : ExecState) :
    (failFinalize st).task =
      { st.task with status := Status.failed, progress := 0 } := rfl

@[simp] theorem failFinalize_tracker (st : ExecState) :
    (failFinalize st).tracker = st.tracker := rfl

@[simp] theorem failFinalize_trace (st : ExecState) :
    (failFinalize st).trace =
      (st.trace ++ [Event.statusSet Status.failed]) ++ [Event.progressSet 0] := rfl

theorem attemptCount_append (t1 t2 : List Event) :
    attemptCount (t1 ++ t2) = attemptCount t1 + attemptCount t2 := by
  simp [attemptCount, List.filter_append]

/-! ## C3: retry bound -/

set_option maxRecDepth 8000 in
/-- **C3.** Retry bound: for every job run, `retry_count` never exceeds
`max_retry_count` — neither in the final state nor in the retry count
recorded at the start of any attempt — and in the exhausted-retries
scenario (every attempt fails with the retryable `"Stream mapping failed"`
error, `max_retry_count = 3`) exactly 4 attempts are executed, the final
status is `failed` and `retry_count` ends at 3. -/
theorem executeRun_retry_bound :
    (∀ (job : JobSpec) (attempts : List AttemptSpec) (now : ℚ) (st0 : ExecState),
      st0.task.retry_count ≤ st0.task.max_retry_count →
      (∀ n, Event.attemptStarted n ∈ st0.trace → n ≤ st0.task.max_retry_count) →
      (executeRun job attempts now st0).1.task.retry_count ≤ st0.task.max_retry_count ∧
      (∀ n, Event.attemptStarted n ∈ (executeRun job attempts now st0).1.trace →
        n ≤ st0.task.max_retry_count)) ∧
    (exhaustedRetriesRun.1.task.status = Status.failed ∧
      exhaustedRetriesRun.1.task.retry_count = 3 ∧
      exhaustedRetriesRun.1.task.max_retry_count = 3 ∧
      attemptCount exhaustedRetriesRun.1.trace = 4 ∧
      exhaustedRetriesRun.2 = false) := by
  constructor
  · intro job attempts now st0 h1 h3
    have hS1 : (startExecute job now st0).task.retry_count ≤
        (startExecute job now st0).task.max_retry_count := h1
    have hS3 : ∀ n, Event.attemptStarted n ∈ (startExecute job now st0).trace →
        n ≤ (startExecute job now st0).task.max_retry_count := by
      intro n hn
      simp only [startExecute_trace, startExecute_task] at hn ⊢
      rcases List.mem_append.mp hn with hn | hn
      · rcases List.mem_append.mp hn with hn | hn
        · exact h3 n hn
        · simp at hn
      · simp at hn
    obtain ⟨k1, k2, k3, k4⟩ := executeLoop_invariants job attempts
      (startExecute job now st0) (startExecute job now st0).tracker hS1 (Or.inl rfl) hS3
    rw [executeRun_eq]
    rcases hE : executeLoop job attempts (startExecute job now st0) with ⟨st1, r⟩
    rw [hE] at k1 k2 k3 k4
    have hmax : st1.task.max_retry_count = st0.task.max_retry_count := k2
    cases r with
    | some b =>
      refine ⟨by rw [← hmax]; exact k1, ?_⟩
      intro n hn
      simp only [finishExecute_trace] at hn
      rcases List.mem_append.mp hn with hn | hn
      · exact hmax ▸ k4 n hn
      · simp at hn
    | none =>
      refine ⟨by rw [← hmax]; exact k1, ?_⟩
      intro n hn
      simp only [finishExecute_trace, failFinalize_trace] at hn
      rcases List.mem_append.mp hn with hn | hn
      · rcases List.mem_append.mp hn with hn | hn
        · rcases List.mem_append.mp hn with hn | hn
          · exact hmax ▸ k4 n hn
          · simp at hn
        · simp at hn
      · simp at hn
  · with_unfolding_all decide

/-- Witness for C3's general part at a concrete input: the
exhausted-retries scenario itself starts from the initial task state
(`retry_count = 0 ≤ 3`, empty trace) and ends with `retry_count ≤ 3`. -/
theorem executeRun_retry_bound_witness :
    (initialExecState emptyTracker).task.retry_count ≤
      (initialExecState emptyTracker).task.max_retry_count ∧
    (executeRun scenarioJob (List.replicate 5 streamMappingFailAttempt) 0
        (initialExecState emptyTracker)).1.task.retry_count ≤
      (initialExecState emptyTracker).task.max_retry_count :=
  ⟨by with_unfolding_all decide,
    (executeRun_retry_bound.1 scenarioJob (List.replicate 5 streamMappingFailAttempt) 0
      (initialExecState emptyTracker) (by with_unfolding_all decide)
      (fun n hn => by simp [initialExecState] at hn)).1⟩

/-! ## C9: tracker balance -/

/-- Tracker part of the loop invariant, free of any assumption on the
initial trace. -/
theorem trackerReach_step {job : JobSpec} {st st' : ExecState} {T : TrackerState}
    (htr : st'.tracker = st.tracker ∨
      st'.tracker = removeEncodingFile st.tracker job.output_file_path)
    (h2 : st.tracker = T ∨ st.tracker = removeEncodingFile T job.output_file_path) :
    st'.tracker = T ∨ st'.tracker = removeEncodingFile T job.output_file_path := by
  rcases htr with h | h
  · rw [h]; exact h2
  · rcases h2 with h2' | h2'
    · rw [h, h2']; exact Or.inr rfl
    · rw [h, h2', removeEncodingFile_idem]; exact Or.inr rfl

theorem LoopStep.rc_le {job : JobSpec} {st st' : ExecState} (h : LoopStep job st st')
    (h1 : st.task.retry_count ≤ st.task.max_retry_count) :
    st'.task.retry_count ≤ st'.task.max_retry_count := by
  obtain ⟨hrc, hmax, -, -⟩ := h
  rcases hrc with h' | ⟨h', hlt⟩ <;> omega

theorem executeLoop_tracker (job : JobSpec) (attempts : List AttemptSpec)
    (st : ExecState) (T : TrackerState)
    (h1 : st.task.retry_count ≤ st.task.max_retry_count)
    (h2 : st.tracker = T ∨ st.tracker = removeEncodingFile T job.output_file_path) :
    (executeLoop job attempts st).1.tracker = T ∨
      (executeLoop job attempts st).1.tracker =
        removeEncodingFile T job.output_file_path := by
  induction attempts generalizing st with
  | nil => exact h2
  | cons a rest ih =>
    rw [executeLoop_cons, if_pos h1]
    have hstep := iterStep_effect job a st h1
    cases hio : iterStep job a st with
    | ret st' res =>
      rw [hio] at hstep
      exact trackerReach_step hstep.2.2.1 h2
    | brk st' =>
      rw [hio] at hstep
      exact trackerReach_step hstep.2.2.1 h2
    | cont st' =>
      rw [hio] at hstep
      exact ih st' (hstep.rc_le h1) (trackerReach_step hstep.2.2.1 h2)

/-- **C9.** Tracker balance: for every job execution — success, failure,
cancellation or unexpected exception — the output path registered at the
start of `execute()` has been removed again once the run ends, so the
tracker returns to its pre-job state (`remove` being idempotent on an
absent path); assuming only that the path was not already registered. -/
theorem executeRun_tracker_balance (job : JobSpec) (attempts : List AttemptSpec)
    (now : ℚ) (st0 : ExecState)
    (h1 : st0.task.retry_count ≤ st0.task.max_retry_count)
    (hfree1 : ∀ q ∈ st0.tracker.encoding_files, q ≠ job.output_file_path)
    (hfree2 : ∀ kv ∈ st0.tracker.file_timestamps, kv.1 ≠ job.output_file_path) :
    (executeRun job attempts now st0).1.tracker = st0.tracker ∧
    (executeRun job attempts now st0).1.tracker.encoding_files.length =
      st0.tracker.encoding_files.length := by
  have hadd : removeEncodingFile
      (addEncodingFile st0.tracker job.output_file_path now) job.output_file_path =
      st0.tracker := removeEncodingFile_add st0.tracker job.output_file_path now hfree1 hfree2
  have htr := executeLoop_tracker job attempts (startExecute job now st0)
    (addEncodingFile st0.tracker job.output_file_path now) h1 (Or.inl rfl)
  suffices hmain : (executeRun job attempts now st0).1.tracker = st0.tracker by
    exact ⟨hmain, by rw [hmain]⟩
  rw [executeRun_eq]
  rcases hE : executeLoop job attempts (startExecute job now st0) with ⟨st1, r⟩
  rw [hE] at htr
  cases r with
  | some b =>
    show removeEncodingFile st1.tracker job.output_file_path = st0.tracker
    rcases htr with htr | htr
    · rw [htr, hadd]
    · rw [htr, removeEncodingFile_idem, hadd]
  | none =>
    show removeEncodingFile st1.tracker job.output_file_path = st0.tracker
    rcases htr with htr | htr
    · rw [htr, hadd]
    · rw [htr, removeEncodingFile_idem, hadd]

/-- Witness for C9 at a concrete input: the cancel-mid-sleep run over an
empty tracker ends with the tracker empty again. -/
theorem executeRun_tracker_balance_witness :
    (executeRun scenarioJob [oomCancelMidSleepAttempt, oomFailAttempt, oomFailAttempt] 0
        (initialExecState emptyTracker)).1.tracker = emptyTracker :=
  (executeRun_tracker_balance scenarioJob
    [oomCancelMidSleepAttempt, oomFailAttempt, oomFailAttempt] 0
    (initialExecState emptyTracker) (by with_unfolding_all decide)
    (fun q hq => by simp [initialExecState, emptyTracker] at hq)
    (fun kv hkv => by simp [initialExecState, emptyTracker] at hkv)).1

/-! ## C10: preparation failure returns early -/

/-- **C10.** If attempt preparation fails — missing database record,
missing input file, failed disk-space check, or an exception inside
`_prepareEncoding` — `execute()` returns `False` immediately with
`error_message` set, without starting the transcoder, without classifying
or retrying, and without transitioning to `failed`: the task stays
`processing` (a non-terminal state) when the run ends. -/
theorem executeRun_prep_failure (job : JobSpec) (a : AttemptSpec)
    (rest : List AttemptSpec) (now : ℚ) (st0 : ExecState) (m : String)
    (hra : a.raisesAtLoop = none) (hp : prepError job a.prep = some m)
    (hc : st0.task.retry_count ≤ st0.task.max_retry_count) :
    (executeRun job (a :: rest) now st0).2 = false ∧
    (executeRun job (a :: rest) now st0).1.task.status = Status.processing ∧
    (executeRun job (a :: rest) now st0).1.task.error_message = some m ∧
    (executeRun job (a :: rest) now st0).1.task.retry_count = st0.task.retry_count ∧
    attemptCount (executeRun job (a :: rest) now st0).1.trace =
      attemptCount st0.trace := by
  have hi : iterStep job a (startExecute job now st0) =
      .ret (setErrorMessage (startExecute job now st0) m) false := by
    unfold iterStep
    rw [hra, hp]
  have hc' : (startExecute job now st0).task.retry_count ≤
      (startExecute job now st0).task.max_retry_count := hc
  have hloop : executeLoop job (a :: rest) (startExecute job now st0) =
      (setErrorMessage (startExecute job now st0) m, some false) := by
    rw [executeLoop_cons, if_pos hc', hi]
  rw [executeRun_eq, hloop]
  refine ⟨rfl, rfl, rfl, rfl, ?_⟩
  show attemptCount (((st0.trace ++ [Event.statusSet Status.processing]) ++
      [Event.trackerAdded job.output_file_path]) ++
      [Event.trackerRemoved job.output_file_path]) = attemptCount st0.trace
  simp [attemptCount_append, attemptCount, isAttemptStartedEvent]

/-- Witness for C10 at a concrete input: the missing-input-file run. -/
theorem executeRun_prep_failure_witness :
    prepFailRun.2 = false ∧ prepFailRun.1.task.status = Status.processing :=
  ⟨(executeRun_prep_failure scenarioJob prepFailAttempt [streamMappingFailAttempt] 0
      (initialExecState emptyTracker) "Input file not found: /rec/a.ts" rfl
      (by with_unfolding_all decide) (by with_unfolding_all decide)).1,
    (executeRun_prep_failure scenarioJob prepFailAttempt [streamMappingFailAttempt] 0
      (initialExecState emptyTracker) "Input file not found: /rec/a.ts" rfl
      (by with_unfolding_all decide) (by with_unfolding_all decide)).2.1⟩

/-! ## C4: progress under success -/

set_option maxRecDepth 8000 in
/-- Counterexample to C4 as stated: a job that reaches `completed` (the
run returns `True`, final progress is `100.0`) whose observed progress
sequence is `1, 100, 50, 100, 100` — not non-decreasing, because a later
smaller parsed output value overwrites the progress. -/
theorem decreasingProgress_counterexample :
    decreasingProgressRun.2 = true ∧
    decreasingProgressRun.1.task.status = Status.completed ∧
    decreasingProgressRun.1.task.progress = 100 ∧
    progressValues decreasingProgressRun.1.trace = [1, 100, 50, 100, 100] ∧
    nonDecreasing (progressValues decreasingProgressRun.1.trace) = false := by
  with_unfolding_all decide

theorem iterStep_ret_true (job : JobSpec) (a : AttemptSpec) (st st' : ExecState)
    (h : iterStep job a st = .ret st' true) :
    st'.task.status = Status.completed ∧ st'.task.progress = 100 := by
  revert h
  simp only [iterStep]
  cases a.raisesAtLoop with
  | some exc =>
    cases hb : (shouldRetryRun (handleUnexpectedError exc st)).1 <;>
      simp only [hb, Bool.false_eq_true, if_false, if_true] <;> intro h <;> simp at h
  | none =>
    cases prepError job a.prep with
    | some m =>
      intro h
      simp at h
    | none =>
      cases hb : (executeEncodingRun job a st).1 with
      | false =>
        cases hb2 :
            (shouldRetryRun (handleEncodingFailure (executeEncodingRun job a st).2)).1 <;>
          simp only [hb, hb2, Bool.false_eq_true, if_false, if_true] <;> intro h <;>
          simp at h
      | true =>
        simp only [hb, if_true]
        intro h
        simp only [StepOutcome.ret.injEq, and_true] at h
        subst h
        exact ⟨rfl, rfl⟩

theorem executeLoop_some_true (job : JobSpec) (attempts : List AttemptSpec)
    (st st' : ExecState) (h : executeLoop job attempts st = (st', some true)) :
    st'.task.status = Status.completed ∧ st'.task.progress = 100 := by
  induction attempts generalizing st with
  | nil => simp [executeLoop] at h
  | cons a rest ih =>
    rw [executeLoop_cons] at h
    by_cases hc : st.task.retry_count ≤ st.task.max_retry_count
    · rw [if_pos hc] at h
      revert h
      cases hio : iterStep job a st with
      | ret st1 res =>
        intro h
        simp only [Prod.mk.injEq, Option.some.injEq] at h
        obtain ⟨hh1, hh2⟩ := h
        subst hh1
        subst hh2
        exact iterStep_ret_true job a st _ hio
      | brk st1 => intro h; simp at h
      | cont st1 => intro h; exact ih st1 h
    · rw [if_neg hc] at h
      simp at h

/-- **C4 (amended).** For any job whose `execute()` run returns success:
the final status is `completed` and the final progress is exactly `100.0`.
The observed progress sequence is not guaranteed non-decreasing: a parsed
output value overwrites the stored progress even when it is smaller (only
the time-based estimate is applied monotonically). -/
theorem executeRun_success_completed (job : JobSpec) (attempts : List AttemptSpec)
    (now : ℚ) (st0 : ExecState)
    (h : (executeRun job attempts now st0).2 = true) :
    (executeRun job attempts now st0).1.task.status = Status.completed ∧
    (executeRun job attempts now st0).1.task.progress = 100 := by
  rw [executeRun_eq] at h ⊢
  revert h
  rcases hE : executeLoop job attempts (startExecute job now st0) with ⟨st1, r⟩
  cases r with
  | some b =>
    cases b
    · intro h; exact Bool.noConfusion h
    · intro h; exact executeLoop_some_true job attempts _ st1 hE
  | none => intro h; exact Bool.noConfusion h

/-- Witness for C4's amended theorem at a concrete input: the decreasing
progress run does return success and ends completed at `100.0`. -/
theorem executeRun_success_completed_witness :
    (executeRun scenarioJob [decreasingLinesAttempt] 0
        (initialExecState emptyTracker)).1.task.status = Status.completed ∧
    (executeRun scenarioJob [decreasingLinesAttempt] 0
        (initialExecState emptyTracker)).1.task.progress = 100 :=
  executeRun_success_completed scenarioJob [decreasingLinesAttempt] 0
    (initialExecState emptyTracker)
    (by set_option maxRecDepth 8000 in with_unfolding_all decide)

/-! ## C1: terminal states and cancel() -/

/-- Counterexample to C1 as stated: `cancel()` invoked on a task already
in the terminal state `completed` changes its status to `cancelled`, so it
is neither a no-op on a terminal task nor is `completed` absorbing. -/
theorem cancelRun_on_completed_counterexample :
    completedTaskState.task.status = Status.completed ∧
    (cancelRun scenarioJob completedTaskState).task.status = Status.cancelled ∧
    Status.cancelled ≠ Status.completed := by
  with_unfolding_all decide

/-- **C1 (amended).** Terminal states are not absorbing: from any state —
terminal ones included — `cancel()` sets the status to `cancelled`, and
the retry loop's finalisation sets the status to `failed` (also when it was
`cancelled`).  `cancel()` is idempotent in the sense that a second call
leaves the task state and the tracker unchanged, but it is not a no-op on
an already-completed or already-failed task. -/
theorem cancelRun_always_cancels (job : JobSpec) (st : ExecState) :
    (cancelRun job st).task.status = Status.cancelled ∧
    (cancelRun job (cancelRun job st)).task = (cancelRun job st).task ∧
    (cancelRun job (cancelRun job st)).tracker = (cancelRun job st).tracker ∧
    (failFinalize st).task.status = Status.failed := by
  refine ⟨rfl, rfl, ?_, rfl⟩
  simp only [cancelRun_tracker]
  exact removeEncodingFile_idem st.tracker job.output_file_path

/-! ## C2: cancellation during the backoff sleep -/

set_option maxRecDepth 8000 in
/-- Counterexample to C2 as stated: `cancel()` arrives during the backoff
sleep after the first failed attempt, yet the full 30 s delay elapses
(`slept 30` precedes `cancelRan` completing), a second attempt starts
afterwards (`attemptStarted 1`), and the terminal state is `failed`, not
`cancelled` — the full event trace of the run is asserted. -/
theorem cancelMidSleep_counterexample :
    cancelMidSleepRun.1.task.is_cancelled = true ∧
    cancelMidSleepRun.1.trace =
      [Event.statusSet Status.processing, Event.trackerAdded "/rec/a_h264.ts",
        Event.attemptStarted 0, Event.progressSet 1, Event.slept 30, Event.cancelRan,
        Event.statusSet Status.cancelled, Event.trackerRemoved "/rec/a_h264.ts",
        Event.attemptStarted 1, Event.statusSet Status.failed, Event.progressSet 0,
        Event.trackerRemoved "/rec/a_h264.ts"] ∧
    attemptCount cancelMidSleepRun.1.trace = 2 ∧
    cancelMidSleepRun.1.task.status = Status.failed ∧
    Status.failed ≠ Status.cancelled := by
  with_unfolding_all decide

/-- **C2 (amended).** A `cancel()` arriving mid-backoff-sleep does not
abort the sleep and does not prevent the next attempt; the cancellation is
observed only at the next retry decision, which then refuses to retry, and
the loop finalisation sets the terminal status to `failed`, not
`cancelled`: once the cancel flag is set, `_shouldRetry` returns false
without touching the state, and the finalisation always writes `failed`. -/
theorem cancelled_stops_retries (st : ExecState)
    (h : st.task.is_cancelled = true) :
    shouldRetryRun st = (false, st) ∧
    (failFinalize st).task.status = Status.failed := by
  constructor
  · simp [shouldRetryRun, h]
  · rfl

/-- Witness for C2's amended theorem at a concrete input: a freshly
cancelled task. -/
theorem cancelled_stops_retries_witness :
    shouldRetryRun (cancelRun scenarioJob (initialExecState emptyTracker)) =
      (false, cancelRun scenarioJob (initialExecState emptyTracker)) :=
  (cancelled_stops_retries (cancelRun scenarioJob (initialExecState emptyTracker))
    (by with_unfolding_all decide)).1

/-! ## C8: multiplexed feed diffing -/

theorem lookupLastState_set_ne (m : List (String × Status × ℚ)) (id id' : String)
    (v : Status × ℚ) (h : id' ≠ id) :
    lookupLastState (setLastState m id v) id' = lookupLastState m id' := by
  unfold lookupLastState setLastState
  have htail : List.find? (fun kv => decide (kv.1 = id')) [(id, v)] = none := by
    rw [List.find?_cons_of_neg _ (by simp [Ne.symm h])]
    rfl
  rw [List.find?_append, htail, Option.or_none]
  have hfind : List.find? (fun kv => decide (kv.1 = id'))
      (List.filter (fun kv => decide (kv.1 ≠ id)) m) =
      List.find? (fun kv => decide (kv.1 = id')) m := by
    induction m with
    | nil => rfl
    | cons kv rest ih =>
      by_cases h2 : kv.1 = id'
      · have h1 : decide (kv.1 ≠ id) = true := by simp [h2, h]
        rw [List.filter_cons_of_pos (p := fun kv => decide (kv.1 ≠ id)) (a := kv) h1,
          List.find?_cons_of_pos _ (by simp [h2]), List.find?_cons_of_pos _ (by simp [h2])]
      · by_cases h1 : kv.1 = id
        · rw [List.filter_cons_of_neg (p := fun kv => decide (kv.1 ≠ id)) (a := kv)
              (by simp [h1]), List.find?_cons_of_neg _ (by simp [h2])]
          exact ih
        · rw [List.filter_cons_of_pos (p := fun kv => decide (kv.1 ≠ id)) (a := kv)
              (by simp [h1]), List.find?_cons_of_neg _ (by simp [h2]),
            List.find?_cons_of_neg _ (by simp [h2])]
          exact ih
  rw [hfind]

theorem broadcastTick_aux (tasks : List BroadcastTask)
    (batch : List String) (m last : List (String × Status × ℚ))
    (hl : ∀ t ∈ tasks, lookupLastState m t.task_id = lookupLastState last t.task_id)
    (hnd : (tasks.map BroadcastTask.task_id).Nodup) :
    (tasks.foldl tickStep (batch, m)).1 =
      batch ++ (tasks.filter (fun t =>
        tickChanged (lookupLastState last t.task_id) t.status (roundTo1 t.progress))).map
        BroadcastTask.task_id := by
  induction tasks generalizing batch m with
  | nil => simp
  | cons t ts ih =>
    have hlt := hl t (List.mem_cons_self t ts)
    have hnd' : (ts.map BroadcastTask.task_id).Nodup := (List.nodup_cons.mp hnd).2
    have hne : ∀ t' ∈ ts, t'.task_id ≠ t.task_id := by
      intro t' ht' heq
      exact (List.nodup_cons.mp hnd).1 (heq ▸ List.mem_map_of_mem BroadcastTask.task_id ht')
    simp only [List.foldl_cons, List.filter_cons]
    by_cases hch : tickChanged (lookupLastState last t.task_id) t.status
        (roundTo1 t.progress) = true
    · have hstep : tickStep (batch, m) t =
          (batch ++ [t.task_id],
            setLastState m t.task_id (t.status, roundTo1 t.progress)) := by
        unfold tickStep
        rw [hlt, if_pos hch]
      rw [hstep]
      have hl' : ∀ t' ∈ ts,
          lookupLastState (setLastState m t.task_id (t.status, roundTo1 t.progress))
              t'.task_id =
            lookupLastState last t'.task_id := by
        intro t' ht'
        rw [lookupLastState_set_ne m t.task_id t'.task_id _ (hne t' ht')]
        exact hl t' (List.mem_cons_of_mem t ht')
      rw [ih (batch ++ [t.task_id]) _ hl' hnd']
      simp [hch]
    · have hstep : tickStep (batch, m) t = (batch, m) := by
        unfold tickStep
        rw [hlt, if_neg hch]
      rw [hstep, ih batch m (fun t' ht' => hl t' (List.mem_cons_of_mem t ht')) hnd']
      simp [hch]

/-- **C8.** Multiplexed feed diffing: in one broadcast tick, a task is in
the emitted batch iff it has never been broadcast or its
`(status, progress rounded to 0.1)` pair differs from the pair stored at
its last broadcast (assuming, as for `_running_tasks`, distinct task ids);
and in the claim's scenario — two jobs whose progress moved by 0.05 and
0.2 from a last-broadcast pair `(processing, 50.0)` — only the second job
is emitted. -/
theorem broadcastTick_diffing :
    (∀ (tasks : List BroadcastTask) (last : List (String × Status × ℚ)),
      (tasks.map BroadcastTask.task_id).Nodup →
      (broadcastTick tasks last).1 =
        (tasks.filter (fun t =>
          tickChanged (lookupLastState last t.task_id) t.status
            (roundTo1 t.progress))).map BroadcastTask.task_id) ∧
    (broadcastTick tickTasks tickLast).1 = ["job2"] := by
  constructor
  · intro tasks last hnd
    unfold broadcastTick
    rw [broadcastTick_aux tasks [] last last (fun t ht => rfl) hnd]
    simp
  · with_unfolding_all decide

/-- Witness for C8's general part at the scenario input (whose two task
ids are distinct). -/
theorem broadcastTick_diffing_witness :
    (tickTasks.map BroadcastTask.task_id).Nodup ∧
    (broadcastTick tickTasks tickLast).1 =
      (tickTasks.filter (fun t =>
        tickChanged (lookupLastState tickLast t.task_id) t.status
          (roundTo1 t.progress))).map BroadcastTask.task_id :=
  ⟨by with_unfolding_all decide,
    broadcastTick_diffing.1 tickTasks tickLast (by with_unfolding_all decide)⟩

end KonomiTV
